import Mathlib

/-!
# Verification of the sUSDe term-structure dashboard core

Shallow embedding of the analytical core of the sUSDe term-structure
dashboard:

* the Spread Engine (`computeTermSpreads` in the ingestion module) — here the
  per-date loop body `computeTermSpreadForDate`;
* the Smoothing Pass (`compute7DayMA`);
* the Regime Classifier (`interpretTermSpread` in the dashboard module);
* the Analytics Engine (`computeDeciles`, `findBtcPrice`, the forward-return
  join and the realized-volatility series in the dashboard module);
* the persistence upserts (`upsertTermSpread`, `updateTermSpread7dma`,
  `updateRegime` in the database module).

Conventions of the embedding:

* JavaScript IEEE-754 numbers are modelled as exact rationals `ℚ`;
* ISO `YYYY-MM-DD` date strings are modelled as day numbers (`ℕ` for table
  keys and expiries — lexicographic order on ISO strings coincides with
  chronological order — and `ℤ` where the code does calendar arithmetic,
  `Date.setDate` being addition of days on the timeline);
* the SQL `ORDER BY` and the (stable, ES2019) `Array.prototype.sort` are
  modelled with the stable `List.insertionSort`;
* `Math.log` and `Math.sqrt` have no computable counterpart on the real
  idealization; the logarithm is an explicit function parameter and the
  final square root of the volatility computation is applied in the theorem
  statements via `Real.sqrt`;
* presentation-only string formatting (`toFixed`, colors, long descriptive
  prose) is elided; the numeric data those strings are rendered from is kept.
-/

/-! ## Data model -/

/-- One Pendle market snapshot row of `daily_snapshots` as selected by the
Spread Engine (`SELECT market_addr, expiry, implied_apy, underlying_apy,
days_to_expiry FROM daily_snapshots WHERE date = ?`). -/
structure Snapshot where
  marketAddr : String
  expiry : ℕ
  impliedApy : ℚ
  underlyingApy : ℚ
  daysToExpiry : ℤ
deriving DecidableEq

/-- The named-parameter record handed to `upsertTermSpread.run` by the
Spread Engine. -/
structure TermSpreadParams where
  date : ℕ
  frontAddr : String
  frontExpiry : ℕ
  frontImplied : ℚ
  backAddr : String
  backExpiry : ℕ
  backImplied : ℚ
  termSpread : ℚ
  underlyingApy : ℚ
  numMaturities : ℕ
deriving DecidableEq

/-! ## Spread Engine (`computeTermSpreads`, ingestion module)

`computeTermSpreads` iterates over all dates having snapshots; the loop body
below is the per-date computation.  The SQL filter `days_to_expiry > 0` and
`ORDER BY expiry ASC` become a filter and a stable sort. -/

/-- The snapshots of a date that survive the `days_to_expiry > 0` filter
(the spec's "live" snapshots). -/
def liveSnaps (snaps : List Snapshot) : List Snapshot :=
  snaps.filter fun s => 0 < s.daysToExpiry

/-- The live snapshots of a date sharing one maturity (one leg). -/
def legSnaps (snaps : List Snapshot) (e : ℕ) : List Snapshot :=
  (liveSnaps snaps).filter fun s => s.expiry = e

/-- Unweighted arithmetic mean of the implied yields of a leg. -/
def legMean (l : List Snapshot) : ℚ :=
  ((l.map fun s => s.impliedApy).sum) / l.length

/-- Loop body of `computeTermSpreads` for one date: filter to
`days_to_expiry > 0` ordered by expiry, skip the date if nothing remains
(`none`), otherwise build the record upserted into `term_spreads` —
the multi-maturity branch when at least two distinct expiries remain,
the single-maturity branch (spread = 0) otherwise. -/
def computeTermSpreadForDate (date : ℕ) (snaps : List Snapshot) :
    Option TermSpreadParams :=
  match List.insertionSort (fun a b => a.expiry ≤ b.expiry)
      (snaps.filter fun s => 0 < s.daysToExpiry) with
  | [] => none
  | s0 :: rest =>
    let snapshots := s0 :: rest
    let uniqueExpiries :=
      List.insertionSort (fun a b => a ≤ b) ((snapshots.map fun s => s.expiry).dedup)
    if 2 ≤ uniqueExpiries.length then
      let frontExpiry := uniqueExpiries.headD 0
      let backExpiry := uniqueExpiries.getLastD 0
      let frontSnaps := snapshots.filter fun s => s.expiry = frontExpiry
      let backSnaps := snapshots.filter fun s => s.expiry = backExpiry
      let frontImplied := ((frontSnaps.map fun s => s.impliedApy).sum) / frontSnaps.length
      let backImplied := ((backSnaps.map fun s => s.impliedApy).sum) / backSnaps.length
      some
        { date := date
          frontAddr := (frontSnaps.headD s0).marketAddr
          frontExpiry := frontExpiry
          frontImplied := frontImplied
          backAddr := (backSnaps.headD s0).marketAddr
          backExpiry := backExpiry
          backImplied := backImplied
          termSpread := backImplied - frontImplied
          underlyingApy := (frontSnaps.headD s0).underlyingApy
          numMaturities := uniqueExpiries.length }
    else
      some
        { date := date
          frontAddr := s0.marketAddr
          frontExpiry := s0.expiry
          frontImplied := s0.impliedApy
          backAddr := s0.marketAddr
          backExpiry := s0.expiry
          backImplied := s0.impliedApy
          termSpread := 0
          underlyingApy := s0.underlyingApy
          numMaturities := 1 }

/-! ## Smoothing Pass (`compute7DayMA`, ingestion module)

The pass reads the `term_spread` column ordered by date and writes back the
trailing 7-point average; the embedding maps the ordered value series to the
series of averages. -/

/-- `compute7DayMA`: for every index `i`, average of
`rows.slice(max(0, i-6), i+1)` (natural subtraction is exactly
`Math.max(0, i - 6)`). -/
def compute7DayMA (rows : List ℚ) : List ℚ :=
  (List.range rows.length).map fun i =>
    let windowStart := i - 6
    let window := (rows.drop windowStart).take (i + 1 - windowStart)
    window.sum / window.length

theorem length_compute7DayMA (rows : List ℚ) :
    (compute7DayMA rows).length = rows.length := by
  simp [compute7DayMA]

/-! ## List helpers for sorted lists and permutations -/

theorem headD_mem_of_ne_nil {α : Type _} (l : List α) (d : α) (h : l ≠ []) :
    l.headD d ∈ l := by
  cases l with
  | nil => exact absurd rfl h
  | cons a t => simp

theorem getLastD_mem_cons' {α : Type _} :
    ∀ (l : List α) (a : α), l.getLastD a = a ∨ l.getLastD a ∈ l := by
  intro l
  induction l with
  | nil => intro a; left; rfl
  | cons b t ih =>
    intro a
    rw [List.getLastD_cons]
    rcases ih b with h' | h'
    · right; rw [h']; exact List.mem_cons_self b t
    · right; exact List.mem_cons_of_mem b h'

theorem getLastD_mem_of_ne_nil {α : Type _} (l : List α) (d : α) (h : l ≠ []) :
    l.getLastD d ∈ l := by
  cases l with
  | nil => exact absurd rfl h
  | cons a t =>
    rw [List.getLastD_cons]
    rcases getLastD_mem_cons' t a with h' | h'
    · rw [h']; exact List.mem_cons_self a t
    · exact List.mem_cons_of_mem a h'

theorem sorted_headD_le (l : List ℕ) (hs : l.Sorted (· ≤ ·)) :
    ∀ x ∈ l, l.headD 0 ≤ x := by
  cases l with
  | nil => intro x hx; exact absurd hx (List.not_mem_nil x)
  | cons a t =>
    intro x hx
    rcases List.mem_cons.1 hx with rfl | hxt
    · simp
    · exact (List.pairwise_cons.1 hs).1 x hxt

theorem sorted_le_getLastD :
    ∀ (l : List ℕ) (d : ℕ), l.Sorted (· ≤ ·) → ∀ x ∈ l, x ≤ l.getLastD d := by
  intro l
  induction l with
  | nil => intro d _ x hx; exact absurd hx (List.not_mem_nil x)
  | cons a t ih =>
    intro d hs x hx
    rw [List.getLastD_cons]
    rcases List.mem_cons.1 hx with hxa | hxt
    · subst hxa
      cases t with
      | nil => simp
      | cons b t' =>
        have hab : x ≤ b := (List.pairwise_cons.1 hs).1 b (by simp)
        have hb := ih x (List.Sorted.of_cons hs) b (by simp)
        omega
    · exact ih a (List.Sorted.of_cons hs) x hxt


/-- C3: for the full spread series ordered ascending by date, the Smoothing
Pass sets the smoothed value at every index `i` to the arithmetic mean of
`spread[max(0, i-6) .. i]`: for `i ≥ 6` the mean of the current and the six
preceding entries, for `i < 6` the mean of `spread[0 .. i]`; no future entry
contributes (the window is a prefix of `spread[0 .. i]`). -/
theorem compute7DayMA_trailing_window (rows : List ℚ) (i : ℕ)
    (hi : i < rows.length) :
    (6 ≤ i →
      (compute7DayMA rows).getD i 0 = ((rows.drop (i - 6)).take 7).sum / 7) ∧
    (i < 6 →
      (compute7DayMA rows).getD i 0 = (rows.take (i + 1)).sum / (i + 1)) := by
  have hg : (compute7DayMA rows).getD i 0 =
      ((rows.drop (i - 6)).take (i + 1 - (i - 6))).sum /
        ((rows.drop (i - 6)).take (i + 1 - (i - 6))).length := by
    simp [compute7DayMA, List.getD_eq_getElem?_getD, List.getElem?_map,
      List.getElem?_range, hi]
  constructor
  · intro h6
    have h7 : i + 1 - (i - 6) = 7 := by omega
    have hlen : ((rows.drop (i - 6)).take 7).length = 7 := by
      rw [List.length_take, List.length_drop]
      omega
    rw [hg, h7, hlen]
    norm_num
  · intro h6
    have h0 : i - 6 = 0 := by omega
    have hlen : (rows.take (i + 1 - 0)).length = i + 1 := by
      rw [List.length_take]
      omega
    rw [hg, h0, List.drop_zero, hlen]
    push_cast
    ring_nf

theorem compute7DayMA_trailing_window_witness :
    7 < ([0, 1, 2, 3, 4, 5, 6, 7] : List ℚ).length ∧
    ((6 ≤ 7 →
      (compute7DayMA [0, 1, 2, 3, 4, 5, 6, 7]).getD 7 0 =
        ((([0, 1, 2, 3, 4, 5, 6, 7] : List ℚ).drop (7 - 6)).take 7).sum / 7) ∧
     (7 < 6 →
      (compute7DayMA [0, 1, 2, 3, 4, 5, 6, 7]).getD 7 0 =
        (([0, 1, 2, 3, 4, 5, 6, 7] : List ℚ).take (7 + 1)).sum / (7 + 1))) :=
  ⟨by decide, compute7DayMA_trailing_window [0, 1, 2, 3, 4, 5, 6, 7] 7 (by decide)⟩

/-- C1: on a date where at least two distinct maturities remain among the
snapshots with `days_to_expiry > 0`, the Spread Engine writes a record whose
front maturity is the minimum and back maturity the maximum of the live
maturities, whose leg implied yields are the unweighted arithmetic means of
the implied yields of all live snapshots sharing the leg's maturity, whose
spread is exactly `backImplied - frontImplied` (no rounding), and whose
maturity count is the number of distinct live maturities. -/
theorem computeTermSpreadForDate_multi (date : ℕ) (snaps : List Snapshot)
    (h2 : 2 ≤ (((liveSnaps snaps).map fun s => s.expiry).dedup).length) :
    ∃ row, computeTermSpreadForDate date snaps = some row ∧
      row.frontExpiry ∈ (liveSnaps snaps).map (fun s => s.expiry) ∧
      row.backExpiry ∈ (liveSnaps snaps).map (fun s => s.expiry) ∧
      (∀ e ∈ (liveSnaps snaps).map (fun s => s.expiry),
        row.frontExpiry ≤ e ∧ e ≤ row.backExpiry) ∧
      row.frontImplied = legMean (legSnaps snaps row.frontExpiry) ∧
      row.backImplied = legMean (legSnaps snaps row.backExpiry) ∧
      row.termSpread = row.backImplied - row.frontImplied ∧
      row.numMaturities = (((liveSnaps snaps).map fun s => s.expiry).dedup).length := by
  classical
  set L : List Snapshot := snaps.filter fun s => 0 < s.daysToExpiry with hL
  have hLlive : L = liveSnaps snaps := rfl
  set S : List Snapshot :=
    List.insertionSort (fun a b => a.expiry ≤ b.expiry) L with hSdef
  have hSperm : S.Perm L := List.perm_insertionSort _ _
  -- the sorted live list is nonempty
  have hLne : L ≠ [] := by
    intro hnil
    rw [hLlive] at hnil
    rw [hnil] at h2
    simp at h2
  have hSne : S ≠ [] := by
    intro hnil
    have := hSperm.length_eq
    rw [hnil] at this
    exact hLne (List.length_eq_zero.1 this.symm)
  obtain ⟨s0, rest, hcons⟩ : ∃ s0 rest, S = s0 :: rest := by
    cases hS : S with
    | nil => exact absurd hS hSne
    | cons a t => exact ⟨a, t, rfl⟩
  -- expiry lists
  have hmapPerm : ((s0 :: rest).map fun s => s.expiry).Perm
      (L.map fun s => s.expiry) := by
    rw [← hcons]; exact hSperm.map _
  have hdedupPerm : (((s0 :: rest).map fun s => s.expiry).dedup).Perm
      ((L.map fun s => s.expiry).dedup) := hmapPerm.dedup
  set U : List ℕ :=
    List.insertionSort (fun a b => a ≤ b)
      (((s0 :: rest).map fun s => s.expiry).dedup) with hUdef
  have hUperm : U.Perm (((s0 :: rest).map fun s => s.expiry).dedup) :=
    List.perm_insertionSort _ _
  have hUpermL : U.Perm ((L.map fun s => s.expiry).dedup) :=
    hUperm.trans hdedupPerm
  have hUlen : U.length = (((liveSnaps snaps).map fun s => s.expiry).dedup).length := by
    rw [hUpermL.length_eq, hLlive]
  have hU2 : 2 ≤ U.length := by rw [hUlen]; exact h2
  have hUne : U ≠ [] := by
    intro hnil
    rw [hnil] at hU2
    simp at hU2
  have hUsorted : U.Sorted (· ≤ ·) := by
    rw [hUdef]
    exact List.sorted_insertionSort _ _
  -- membership of an expiry in U vs in the live expiry list
  have hmemU : ∀ e : ℕ, e ∈ U ↔ e ∈ (liveSnaps snaps).map (fun s => s.expiry) := by
    intro e
    rw [hUpermL.mem_iff, List.mem_dedup, hLlive]
  -- reduce the definition
  rw [computeTermSpreadForDate, ← hL, ← hSdef, hcons]
  simp only [← hUdef]
  rw [if_pos hU2]
  refine ⟨_, rfl, ?_, ?_, ?_, ?_, ?_, rfl, hUlen⟩
  · exact (hmemU _).1 (headD_mem_of_ne_nil U 0 hUne)
  · exact (hmemU _).1 (getLastD_mem_of_ne_nil U 0 hUne)
  · intro e he
    have heU : e ∈ U := (hmemU e).2 he
    exact ⟨sorted_headD_le U hUsorted e heU, sorted_le_getLastD U 0 hUsorted e heU⟩
  · -- front leg mean
    have hfiltPerm : ((s0 :: rest).filter fun s => s.expiry = U.headD 0).Perm
        (legSnaps snaps (U.headD 0)) := by
      rw [← hcons]
      have := hSperm.filter (fun s => decide (s.expiry = U.headD 0))
      simpa [legSnaps, hLlive] using this
    simp only [legMean]
    rw [(hfiltPerm.map fun s => s.impliedApy).sum_eq, hfiltPerm.length_eq]
  · -- back leg mean
    have hfiltPerm : ((s0 :: rest).filter fun s => s.expiry = U.getLastD 0).Perm
        (legSnaps snaps (U.getLastD 0)) := by
      rw [← hcons]
      have := hSperm.filter (fun s => decide (s.expiry = U.getLastD 0))
      simpa [legSnaps, hLlive] using this
    simp only [legMean]
    rw [(hfiltPerm.map fun s => s.impliedApy).sum_eq, hfiltPerm.length_eq]

/-- Two live snapshots with distinct maturities (concrete scenario 1 shape). -/
def snapsTwoMaturities : List Snapshot :=
  [{ marketAddr := "0xfront", expiry := 100, impliedApy := 4/100,
     underlyingApy := 1/100, daysToExpiry := 30 },
   { marketAddr := "0xback", expiry := 250, impliedApy := 6/100,
     underlyingApy := 1/100, daysToExpiry := 180 }]

theorem computeTermSpreadForDate_multi_witness :
    2 ≤ (((liveSnaps snapsTwoMaturities).map fun s => s.expiry).dedup).length ∧
    (∃ row, computeTermSpreadForDate 0 snapsTwoMaturities = some row ∧
      row.frontExpiry ∈ (liveSnaps snapsTwoMaturities).map (fun s => s.expiry) ∧
      row.backExpiry ∈ (liveSnaps snapsTwoMaturities).map (fun s => s.expiry) ∧
      (∀ e ∈ (liveSnaps snapsTwoMaturities).map (fun s => s.expiry),
        row.frontExpiry ≤ e ∧ e ≤ row.backExpiry) ∧
      row.frontImplied = legMean (legSnaps snapsTwoMaturities row.frontExpiry) ∧
      row.backImplied = legMean (legSnaps snapsTwoMaturities row.backExpiry) ∧
      row.termSpread = row.backImplied - row.frontImplied ∧
      row.numMaturities =
        (((liveSnaps snapsTwoMaturities).map fun s => s.expiry).dedup).length) :=
  ⟨by decide, computeTermSpreadForDate_multi 0 snapsTwoMaturities (by decide)⟩

/-- C2 (amended): on a date where exactly one distinct maturity remains after
the `days_to_expiry > 0` filter, the Spread Engine emits a record with
`numMaturities = 1`, `termSpread = 0` and identical front and back legs; the
recorded leg yield is the implied yield of the first live snapshot in expiry
order — not the unweighted mean when several instruments share the sole
maturity. -/
theorem computeTermSpreadForDate_single (date : ℕ) (snaps : List Snapshot)
    (h1 : (((liveSnaps snaps).map fun s => s.expiry).dedup).length = 1) :
    ∃ row, computeTermSpreadForDate date snaps = some row ∧
      row.numMaturities = 1 ∧
      row.termSpread = 0 ∧
      row.frontAddr = row.backAddr ∧
      row.frontExpiry = row.backExpiry ∧
      row.frontImplied = row.backImplied ∧
      ∃ s ∈ liveSnaps snaps, row.frontAddr = s.marketAddr ∧
        row.frontImplied = s.impliedApy ∧ row.frontExpiry = s.expiry := by
  classical
  set L : List Snapshot := snaps.filter fun s => 0 < s.daysToExpiry with hL
  have hLlive : L = liveSnaps snaps := rfl
  set S : List Snapshot :=
    List.insertionSort (fun a b => a.expiry ≤ b.expiry) L with hSdef
  have hSperm : S.Perm L := List.perm_insertionSort _ _
  have hLne : L ≠ [] := by
    intro hnil
    rw [hLlive] at hnil
    rw [hnil] at h1
    simp at h1
  have hSne : S ≠ [] := by
    intro hnil
    have := hSperm.length_eq
    rw [hnil] at this
    exact hLne (List.length_eq_zero.1 this.symm)
  obtain ⟨s0, rest, hcons⟩ : ∃ s0 rest, S = s0 :: rest := by
    cases hS : S with
    | nil => exact absurd hS hSne
    | cons a t => exact ⟨a, t, rfl⟩
  have hmapPerm : ((s0 :: rest).map fun s => s.expiry).Perm
      (L.map fun s => s.expiry) := by
    rw [← hcons]; exact hSperm.map _
  have hdedupPerm : (((s0 :: rest).map fun s => s.expiry).dedup).Perm
      ((L.map fun s => s.expiry).dedup) := hmapPerm.dedup
  set U : List ℕ :=
    List.insertionSort (fun a b => a ≤ b)
      (((s0 :: rest).map fun s => s.expiry).dedup) with hUdef
  have hUperm : U.Perm (((s0 :: rest).map fun s => s.expiry).dedup) :=
    List.perm_insertionSort _ _
  have hUlen : U.length = 1 := by
    rw [(hUperm.trans hdedupPerm).length_eq, hLlive]
    exact h1
  have hUnot2 : ¬ 2 ≤ U.length := by omega
  have hs0mem : s0 ∈ liveSnaps snaps := by
    rw [← hLlive]
    exact hSperm.mem_iff.1 (hcons ▸ List.mem_cons_self s0 rest)
  rw [computeTermSpreadForDate, ← hL, ← hSdef, hcons]
  simp only [← hUdef]
  rw [if_neg hUnot2]
  exact ⟨_, rfl, rfl, rfl, rfl, rfl, rfl, s0, hs0mem, rfl, rfl, rfl⟩

/-- Two live snapshots sharing the sole maturity with different implied
yields: the Spread Engine records the first snapshot's yield. -/
def snapsSharedMaturity : List Snapshot :=
  [{ marketAddr := "0xa", expiry := 100, impliedApy := 4/100,
     underlyingApy := 1/100, daysToExpiry := 30 },
   { marketAddr := "0xb", expiry := 100, impliedApy := 6/100,
     underlyingApy := 1/100, daysToExpiry := 30 }]

/-- C2 counterexample: with two instruments sharing the sole maturity
(implied yields 0.04 and 0.06), the recorded leg yield is 0.04 — the first
snapshot's yield — and not the unweighted mean 0.05 the claim requires. -/
theorem computeTermSpreadForDate_single_not_mean :
    (computeTermSpreadForDate 0 snapsSharedMaturity).map
        (fun r => r.numMaturities) = some 1 ∧
    (computeTermSpreadForDate 0 snapsSharedMaturity).map
        (fun r => r.frontImplied) = some (4/100) ∧
    ((4 : ℚ)/100 + 6/100) / 2 ≠ (4 : ℚ)/100 := by
  refine ⟨by decide, ?_, by norm_num⟩
  have : computeTermSpreadForDate 0 snapsSharedMaturity =
      some { date := 0, frontAddr := "0xa", frontExpiry := 100,
             frontImplied := 4/100, backAddr := "0xa", backExpiry := 100,
             backImplied := 4/100, termSpread := 0, underlyingApy := 1/100,
             numMaturities := 1 } := by
    rw [computeTermSpreadForDate]
    norm_num [snapsSharedMaturity, List.insertionSort, List.orderedInsert,
      List.dedup_cons_of_mem, List.dedup_cons_of_not_mem]
  rw [this]
  rfl

theorem computeTermSpreadForDate_single_witness :
    (((liveSnaps snapsSharedMaturity).map fun s => s.expiry).dedup).length = 1 ∧
    (∃ row, computeTermSpreadForDate 7 snapsSharedMaturity = some row ∧
      row.numMaturities = 1 ∧
      row.termSpread = 0 ∧
      row.frontAddr = row.backAddr ∧
      row.frontExpiry = row.backExpiry ∧
      row.frontImplied = row.backImplied ∧
      ∃ s ∈ liveSnaps snapsSharedMaturity, row.frontAddr = s.marketAddr ∧
        row.frontImplied = s.impliedApy ∧ row.frontExpiry = s.expiry) :=
  ⟨by decide, computeTermSpreadForDate_single 7 snapsSharedMaturity (by decide)⟩

/-! ## Regime Classifier (`interpretTermSpread`, dashboard module)

Pure function from the percentage-scaled spread value and its kind to the
regime classification.  `Math.round` (half toward `+∞`) is `⌊x + 0.5⌋`;
colors and the long descriptive prose are presentation-only and elided. -/

/-- The `spreadType` discriminator of the dashboard's
`CurveInterpretation`. -/
inductive SpreadType where
  | term_spread_7dma
  | term_spread
  | single_maturity
deriving DecidableEq

/-- `Math.round` on an exact rational: round half toward positive
infinity. -/
def jsRound (x : ℚ) : ℤ := Rat.floor (x + 0.5)

/-- The regime classification record (colors/description elided). -/
structure CurveInterpretation where
  shape : String
  regime : String
  spreadValue : ℚ
  spreadType : SpreadType
  probPositive90d : ℚ
  btcOutlook : String
deriving DecidableEq

/-- `interpretTermSpread(spreadPct, spreadType)`: the single-maturity kind
returns the fixed no-signal classification; otherwise the spread value in
percentage points is bucketed by the threshold chain, and
`probPositive90d = round1(clamp(50 + spreadPct * 8, 5, 95))`. -/
def interpretTermSpread (spreadPct : ℚ) (spreadType : SpreadType) :
    CurveInterpretation :=
  match spreadType with
  | SpreadType.single_maturity =>
    { shape := "SINGLE MATURITY"
      regime := "NO SIGNAL"
      spreadValue := 0
      spreadType := SpreadType.single_maturity
      probPositive90d := 50
      btcOutlook := "No signal — single maturity cannot produce a term spread" }
  | st =>
    let shape :=
      if spreadPct > 2 then "STEEP CONTANGO"
      else if spreadPct > 0.5 then "CONTANGO"
      else if spreadPct > -0.5 then "FLAT"
      else if spreadPct > -5 then "BACKWARDATION"
      else "STEEP BACKWARDATION"
    let regime :=
      if spreadPct > 2 then "STRONGLY BULLISH"
      else if spreadPct > 0.5 then "BULLISH"
      else if spreadPct > -0.5 then "NEUTRAL"
      else if spreadPct > -5 then "MILDLY BEARISH"
      else "BEARISH"
    let btcOutlook :=
      if spreadPct > 2 then "Strong positive skew expected over 90-120d"
      else if spreadPct > 0.5 then "Positive return skew likely over 90d"
      else if spreadPct > -0.5 then "Negligible signal — near coin-flip probability"
      else if spreadPct > -5 then "Slightly negative skew, but within normal range"
      else "Negative return skew expected — drawdown risk elevated"
    let probPositive90d := max 5 (min 95 (50 + spreadPct * 8))
    { shape := shape
      regime := regime
      spreadValue := (jsRound (spreadPct * 100) : ℚ) / 100
      spreadType := st
      probPositive90d := (jsRound (probPositive90d * 10) : ℚ) / 10
      btcOutlook := btcOutlook }

/-- C4: for a non-single-maturity spread kind, the classifier returns
steep-contango/strongly-bullish iff `v > 2.0`, contango/bullish iff
`0.5 < v ≤ 2.0`, flat/neutral iff `-0.5 < v ≤ 0.5`,
backwardation/mildly-bearish iff `-5.0 < v ≤ -0.5`, and
steep-backwardation/bearish iff `v ≤ -5.0`; in particular `v = 2.0` exactly
classifies as contango/bullish, not steep-contango. -/
theorem interpretTermSpread_thresholds (v : ℚ) (k : SpreadType)
    (hk : k ≠ SpreadType.single_maturity) :
    (((interpretTermSpread v k).shape = "STEEP CONTANGO" ∧
      (interpretTermSpread v k).regime = "STRONGLY BULLISH") ↔ 2 < v) ∧
    (((interpretTermSpread v k).shape = "CONTANGO" ∧
      (interpretTermSpread v k).regime = "BULLISH") ↔ 0.5 < v ∧ v ≤ 2) ∧
    (((interpretTermSpread v k).shape = "FLAT" ∧
      (interpretTermSpread v k).regime = "NEUTRAL") ↔ -0.5 < v ∧ v ≤ 0.5) ∧
    (((interpretTermSpread v k).shape = "BACKWARDATION" ∧
      (interpretTermSpread v k).regime = "MILDLY BEARISH") ↔ -5 < v ∧ v ≤ -0.5) ∧
    (((interpretTermSpread v k).shape = "STEEP BACKWARDATION" ∧
      (interpretTermSpread v k).regime = "BEARISH") ↔ v ≤ -5) ∧
    (interpretTermSpread 2 k).shape = "CONTANGO" ∧
    (interpretTermSpread 2 k).regime = "BULLISH" := by
  cases k with
  | single_maturity => exact absurd rfl hk
  | term_spread_7dma =>
    refine ⟨?_, ?_, ?_, ?_, ?_, by norm_num [interpretTermSpread],
      by norm_num [interpretTermSpread]⟩ <;>
    · simp only [interpretTermSpread]
      split_ifs with h1 h2 h3 h4 <;>
        simp_all +decide [not_lt] <;>
        first
          | linarith
          | (intro hr; linarith)
  | term_spread =>
    refine ⟨?_, ?_, ?_, ?_, ?_, by norm_num [interpretTermSpread],
      by norm_num [interpretTermSpread]⟩ <;>
    · simp only [interpretTermSpread]
      split_ifs with h1 h2 h3 h4 <;>
        simp_all +decide [not_lt] <;>
        first
          | linarith
          | (intro hr; linarith)

theorem interpretTermSpread_thresholds_witness :
    SpreadType.term_spread ≠ SpreadType.single_maturity ∧
    (((interpretTermSpread 3 SpreadType.term_spread).shape = "STEEP CONTANGO" ∧
      (interpretTermSpread 3 SpreadType.term_spread).regime = "STRONGLY BULLISH") ↔
        2 < (3 : ℚ)) ∧
    (((interpretTermSpread 3 SpreadType.term_spread).shape = "CONTANGO" ∧
      (interpretTermSpread 3 SpreadType.term_spread).regime = "BULLISH") ↔
        0.5 < (3 : ℚ) ∧ (3 : ℚ) ≤ 2) ∧
    (((interpretTermSpread 3 SpreadType.term_spread).shape = "FLAT" ∧
      (interpretTermSpread 3 SpreadType.term_spread).regime = "NEUTRAL") ↔
        -0.5 < (3 : ℚ) ∧ (3 : ℚ) ≤ 0.5) ∧
    (((interpretTermSpread 3 SpreadType.term_spread).shape = "BACKWARDATION" ∧
      (interpretTermSpread 3 SpreadType.term_spread).regime = "MILDLY BEARISH") ↔
        -5 < (3 : ℚ) ∧ (3 : ℚ) ≤ -0.5) ∧
    (((interpretTermSpread 3 SpreadType.term_spread).shape = "STEEP BACKWARDATION" ∧
      (interpretTermSpread 3 SpreadType.term_spread).regime = "BEARISH") ↔
        (3 : ℚ) ≤ -5) ∧
    (interpretTermSpread 2 SpreadType.term_spread).shape = "CONTANGO" ∧
    (interpretTermSpread 2 SpreadType.term_spread).regime = "BULLISH" :=
  ⟨by decide, interpretTermSpread_thresholds 3 SpreadType.term_spread (by decide)⟩

/-- `Math.round` agrees with the mathematical floor of `x + 1/2`. -/
theorem jsRound_eq_floor (x : ℚ) : jsRound x = ⌊x + 1/2⌋ := by
  have h : Rat.floor (x + 0.5) = ⌊x + 0.5⌋ := rfl
  rw [jsRound, h]
  norm_num

/-- C5: for a non-single-maturity spread kind the returned probability is
`clamp(50 + v * 8, 5, 95)` rounded to one decimal place (round half up);
for the single-maturity kind the classifier returns the fixed no-signal
classification with probability 50, regardless of the numeric value. -/
theorem interpretTermSpread_probability (v : ℚ) :
    (∀ k, k ≠ SpreadType.single_maturity →
      (interpretTermSpread v k).probPositive90d =
        (⌊max 5 (min 95 (50 + v * 8)) * 10 + 1/2⌋ : ℚ) / 10) ∧
    (interpretTermSpread v SpreadType.single_maturity).probPositive90d = 50 ∧
    interpretTermSpread v SpreadType.single_maturity =
      interpretTermSpread 0 SpreadType.single_maturity := by
  refine ⟨?_, rfl, rfl⟩
  intro k hk
  cases k with
  | single_maturity => exact absurd rfl hk
  | term_spread_7dma =>
    simp only [interpretTermSpread]
    rw [jsRound_eq_floor]
  | term_spread =>
    simp only [interpretTermSpread]
    rw [jsRound_eq_floor]

theorem interpretTermSpread_probability_witness :
    SpreadType.term_spread ≠ SpreadType.single_maturity ∧
    (interpretTermSpread 0 SpreadType.term_spread).probPositive90d =
      (⌊max 5 (min 95 (50 + (0 : ℚ) * 8)) * 10 + 1/2⌋ : ℚ) / 10 :=
  ⟨by decide,
   (interpretTermSpread_probability 0).1 SpreadType.term_spread (by decide)⟩

/-- Two live snapshots with distinct maturities and a small positive spread
(0.003 in decimal, i.e. 0.3 percentage points). -/
def snapsSmallSpread : List Snapshot :=
  [{ marketAddr := "0xa", expiry := 100, impliedApy := 4/100,
     underlyingApy := 1/100, daysToExpiry := 30 },
   { marketAddr := "0xb", expiry := 200, impliedApy := 43/1000,
     underlyingApy := 1/100, daysToExpiry := 130 }]

/-- C7 counterexample: a date with two maturities and a strictly positive
spread of 0.003 (0.3 percentage points) classifies as "FLAT", which is in
neither the contango family nor the backwardation family. -/
theorem interpretTermSpread_positive_spread_flat :
    (computeTermSpreadForDate 0 snapsSmallSpread).map (fun r => r.termSpread) =
      some (3/1000) ∧
    (0 : ℚ) < 3/1000 ∧
    (computeTermSpreadForDate 0 snapsSmallSpread).map (fun r => r.numMaturities) =
      some 2 ∧
    (interpretTermSpread ((3/1000) * 100) SpreadType.term_spread).shape = "FLAT" ∧
    ("FLAT" : String) ≠ "CONTANGO" ∧ ("FLAT" : String) ≠ "STEEP CONTANGO" := by
  have hrow : computeTermSpreadForDate 0 snapsSmallSpread =
      some { date := 0, frontAddr := "0xa", frontExpiry := 100,
             frontImplied := 4/100, backAddr := "0xb", backExpiry := 200,
             backImplied := 43/1000, termSpread := 43/1000 - 4/100,
             underlyingApy := 1/100, numMaturities := 2 } := by
    rw [computeTermSpreadForDate]
    norm_num [snapsSmallSpread, List.insertionSort, List.orderedInsert,
      List.dedup_cons_of_mem, List.dedup_cons_of_not_mem]
  refine ⟨?_, by norm_num, ?_, ?_, by decide, by decide⟩
  · rw [hrow]; simp; norm_num
  · rw [hrow]; rfl
  · norm_num [interpretTermSpread]

/-- C7 (amended): under the documented thresholds, a record's spread
(percentage-scaled) classifies into the contango family iff it exceeds
0.5 percentage points and into the backwardation family iff it is at most
−0.5 percentage points; strictly positive spreads of at most 0.5 and
strictly negative spreads above −0.5 classify flat. -/
theorem interpretTermSpread_families (v : ℚ) (k : SpreadType)
    (hk : k ≠ SpreadType.single_maturity) :
    (((interpretTermSpread v k).shape = "CONTANGO" ∨
      (interpretTermSpread v k).shape = "STEEP CONTANGO") ↔ 0.5 < v) ∧
    (((interpretTermSpread v k).shape = "BACKWARDATION" ∨
      (interpretTermSpread v k).shape = "STEEP BACKWARDATION") ↔ v ≤ -0.5) := by
  cases k with
  | single_maturity => exact absurd rfl hk
  | term_spread_7dma =>
    constructor <;>
    · simp only [interpretTermSpread]
      split_ifs with h1 h2 h3 h4 <;>
        simp_all +decide [not_lt] <;> linarith
  | term_spread =>
    constructor <;>
    · simp only [interpretTermSpread]
      split_ifs with h1 h2 h3 h4 <;>
        simp_all +decide [not_lt] <;> linarith

theorem interpretTermSpread_families_witness :
    SpreadType.term_spread ≠ SpreadType.single_maturity ∧
    ((((interpretTermSpread 1 SpreadType.term_spread).shape = "CONTANGO" ∨
       (interpretTermSpread 1 SpreadType.term_spread).shape = "STEEP CONTANGO") ↔
        0.5 < (1 : ℚ)) ∧
     (((interpretTermSpread 1 SpreadType.term_spread).shape = "BACKWARDATION" ∨
       (interpretTermSpread 1 SpreadType.term_spread).shape = "STEEP BACKWARDATION") ↔
        (1 : ℚ) ≤ -0.5)) :=
  ⟨by decide, interpretTermSpread_families 1 SpreadType.term_spread (by decide)⟩

/-! ## Analytics Engine (dashboard module)

`findBtcPrice` (and its twin `findPrice` in the scatter panel) resolves a
BTC price at a date with a ±3-day probing tolerance; the forward-return
join uses it for the price at the observation date and at the date 90
calendar days later. -/

/-- A spread observation joined with the BTC price at its date
(`TermSpreadWithBtc`; fields not used by the analytics are elided). -/
structure TermSpreadWithBtc where
  date : ℤ
  term_spread : ℚ
  btc_price : Option ℚ
deriving DecidableEq, Inhabited

/-- `findBtcPrice`: exact date first, then offsets 1, 2, 3 with direction
`+1` probed before `-1` at each offset; `none` when nothing is found within
±3 days. -/
def findBtcPrice (btcPriceMap : ℤ → Option ℚ) (dateStr : ℤ) : Option ℚ :=
  match btcPriceMap dateStr with
  | some p => some p
  | none =>
    ([1, 2, 3] : List ℤ).findSome? fun offset =>
      ([1, -1] : List ℤ).findSome? fun dir => btcPriceMap (dateStr + offset * dir)

/-- Per-observation body of the forward-return loops (decile table and
scatter panel): current price (stored join price, else probed), skipped when
missing or non-positive; future price probed at `date + 90`; the return is
pushed only when both resolve. -/
def rowForwardReturn (m : ℤ → Option ℚ) (row : TermSpreadWithBtc) : Option ℚ :=
  let currentPrice :=
    match row.btc_price with
    | some p => some p
    | none => findBtcPrice m row.date
  match currentPrice with
  | none => none
  | some cp =>
    if cp ≤ 0 then none
    else
      match findBtcPrice m (row.date + 90) with
      | none => none
      | some fp => some ((fp - cp) / cp * 100)

/-- C8: the price lookup resolves to the first hit in the probe order
`d, d+1, d−1, d+2, d−2, d+3, d−3` — so a date with no exact match but a
price within 3 days resolves to exactly one price, offsets ascending and
direction `+1` before `−1` at each offset, and a date with no price within
±3 days yields `none`; and when the future-date lookup yields `none` no
forward return is computed for the observation. -/
theorem findBtcPrice_probe_order (m : ℤ → Option ℚ) (d : ℤ)
    (row : TermSpreadWithBtc) :
    findBtcPrice m d =
      ([d, d + 1, d - 1, d + 2, d - 2, d + 3, d - 3] : List ℤ).findSome? m ∧
    (findBtcPrice m (row.date + 90) = none → rowForwardReturn m row = none) := by
  constructor
  · cases hm : m d with
    | some p => simp [findBtcPrice, hm, List.findSome?_cons]
    | none =>
      simp only [findBtcPrice, hm, List.findSome?_cons, List.findSome?_nil]
      rw [show d + 1 * -1 = d - 1 from by ring, show d + 2 * -1 = d - 2 from by ring,
          show d + 3 * -1 = d - 3 from by ring, show d + 1 * 1 = d + 1 from by ring,
          show d + 2 * 1 = d + 2 from by ring, show d + 3 * 1 = d + 3 from by ring]
      rcases m (d + 1) with _ | p1 <;> rcases m (d - 1) with _ | p2 <;>
        rcases m (d + 2) with _ | p3 <;> rcases m (d - 2) with _ | p4 <;>
          rcases m (d + 3) with _ | p5 <;> rcases m (d - 3) with _ | p6 <;> rfl
  · intro h
    rcases hbp : row.btc_price with _ | p <;>
      simp only [rowForwardReturn, hbp]
    · cases hf : findBtcPrice m row.date with
      | none => simp
      | some cp =>
        simp only [hf]
        split_ifs with hcp
        · rfl
        · simp [h]
    · split_ifs with hcp
      · rfl
      · simp [h]

/-- A price map with a single price two days after date 3 and nothing near
date 1090. -/
def sparsePriceMap : ℤ → Option ℚ :=
  fun z => if z = 5 then some 100 else none

/-- An observation far away from every price of `sparsePriceMap`. -/
def strandedRow : TermSpreadWithBtc :=
  { date := 1000, term_spread := 0, btc_price := none }

theorem findBtcPrice_probe_order_witness :
    findBtcPrice sparsePriceMap 3 =
      ([3, 3 + 1, 3 - 1, 3 + 2, 3 - 2, 3 + 3, 3 - 3] : List ℤ).findSome?
        sparsePriceMap ∧
    rowForwardReturn sparsePriceMap strandedRow = none :=
  ⟨(findBtcPrice_probe_order sparsePriceMap 3 strandedRow).1,
   (findBtcPrice_probe_order sparsePriceMap 3 strandedRow).2 (by decide)⟩

/-- One row of the decile table (`DecileRow`); the `range` string is kept
as its two numeric endpoints (percentage-scaled), colors elided. -/
structure DecileRow where
  decile : ℕ
  rangeLo : ℚ
  rangeHi : ℚ
  count : ℕ
  avgSpread : ℚ
  avgBtcReturn90d : Option ℚ
deriving DecidableEq

/-- `computeDeciles`: fewer than 20 observations yields the empty table;
otherwise sort ascending by spread, `decileSize = ⌊n / 10⌋`, bins `d = 0..9`
slice `[d * decileSize, (d+1) * decileSize)` with the ninth bin extending to
`n`; per bin the mean spread and the mean forward return over the members
whose current and +90-day prices both resolve. -/
def computeDeciles (spreadsWithBtc : List TermSpreadWithBtc)
    (btcPriceMap : ℤ → Option ℚ) : List DecileRow :=
  if spreadsWithBtc.length < 20 then []
  else
    let sorted :=
      List.insertionSort (fun a b => a.term_spread ≤ b.term_spread) spreadsWithBtc
    let n := sorted.length
    let decileSize := n / 10
    (List.range 10).map fun d =>
      let start := d * decileSize
      let stop := if d = 9 then n else (d + 1) * decileSize
      let slice := (sorted.drop start).take (stop - start)
      let avgSpread := ((slice.map fun r => r.term_spread).sum) / slice.length
      let returns := slice.filterMap (rowForwardReturn btcPriceMap)
      let avgReturn : Option ℚ :=
        if 0 < returns.length then some (returns.sum / returns.length) else none
      { decile := d + 1
        rangeLo := (slice.headD default).term_spread * 100
        rangeHi := (slice.getLastD default).term_spread * 100
        count := slice.length
        avgSpread := avgSpread * 100
        avgBtcReturn90d := avgReturn }

/-- Twenty-five spread observations with spreads `0, 1, …, 24`. -/
def obs25 : List TermSpreadWithBtc :=
  (List.range 25).map fun i =>
    { date := i, term_spread := i, btc_price := none }

/-- C6 counterexample: for 25 observations the bins are nine of 2 members
and a final bin of 7 members — the final bin absorbs the whole remainder,
so the member counts are not "either 2 or 3". -/
theorem computeDeciles_25_not_2_or_3 :
    ((computeDeciles obs25 fun _ => none).map fun b => b.count) =
      [2, 2, 2, 2, 2, 2, 2, 2, 2, 7] ∧
    ¬ (∀ b ∈ computeDeciles obs25 fun _ => none, b.count = 2 ∨ b.count = 3) := by
  constructor
  · decide
  · decide

/-- C6 (amended): for any input of exactly 25 historical observations the
decile binning produces exactly 10 bins over the observations sorted
ascending by spread; the first nine bins have exactly 2 members each and
the final bin the remaining 7 (the remainder is absorbed into the final
bin); for fewer than 20 observations it returns the empty list. -/
theorem computeDeciles_25 (l : List TermSpreadWithBtc) (m : ℤ → Option ℚ)
    (h25 : l.length = 25) :
    (computeDeciles l m).length = 10 ∧
    ((computeDeciles l m).map fun b => b.count) =
      [2, 2, 2, 2, 2, 2, 2, 2, 2, 7] ∧
    (∀ l₂ : List TermSpreadWithBtc, l₂.length < 20 → computeDeciles l₂ m = []) := by
  have hns : (List.insertionSort
      (fun a b => a.term_spread ≤ b.term_spread) l).length = 25 := by
    rw [List.length_insertionSort]
    exact h25
  have hnot : ¬ l.length < 20 := by omega
  refine ⟨?_, ?_, ?_⟩
  · rw [computeDeciles, if_neg hnot]
    simp
  · rw [computeDeciles, if_neg hnot]
    simp only [hns, List.range_succ, List.range_zero, List.map_append,
      List.map_cons, List.map_nil, List.nil_append, List.cons_append,
      List.length_take, List.length_drop]
    norm_num [hns]
  · intro l₂ h
    rw [computeDeciles, if_pos h]

theorem computeDeciles_25_witness :
    obs25.length = 25 ∧
    ((computeDeciles obs25 fun _ => none).length = 10 ∧
     ((computeDeciles obs25 fun _ => none).map fun b => b.count) =
       [2, 2, 2, 2, 2, 2, 2, 2, 2, 7] ∧
     (∀ l₂ : List TermSpreadWithBtc, l₂.length < 20 →
       computeDeciles l₂ (fun _ => none) = [])) :=
  ⟨by decide, computeDeciles_25 obs25 (fun _ => none) (by decide)⟩

/-! ## Realized volatility (dashboard module, volatility-prediction panel)

The panel filters the joined rows to those with a resolvable BTC price and,
for each index `i ≥ 30` of the filtered series, computes the population
variance of the `Math.log(p_j / p_{j-1})` returns over `j = i-29 .. i`; the
chart value is `Math.sqrt(variance * 365) * 100`.  The logarithm is an
abstract function parameter and the final square root is applied in the
theorem statement (neither is computable on the exact rationals). -/

theorem filterMap_eq_map_of_forall {α β : Type _} (l : List α)
    (f : α → Option β) (g : α → β) (h : ∀ a ∈ l, f a = some (g a)) :
    l.filterMap f = l.map g := by
  induction l with
  | nil => rfl
  | cons a t ih =>
    rw [List.filterMap_cons, h a (List.mem_cons_self a t), List.map_cons,
      ih fun x hx => h x (List.mem_cons_of_mem a hx)]

/-- The log returns collected for index `i`: `j` runs over `i-29 .. i`, an
entry is pushed only when both `prices[j]` and `prices[j-1]` exist and are
truthy (non-zero); `j = 0` has no predecessor (JS `rows[-1]` is undefined,
hence falsy). -/
def vol30Returns (log : ℚ → ℚ) (prices : List ℚ) (i : ℕ) : List ℚ :=
  (List.range 30).filterMap fun k =>
    let j := i - 29 + k
    if j = 0 then none
    else
      match prices[j]?, prices[j - 1]? with
      | some a, some b => if a ≠ 0 ∧ b ≠ 0 then some (log (a / b)) else none
      | _, _ => none

/-- The per-index variance underlying the volatility series: `none` for
`i < 30` or when at most 5 returns were collected, otherwise the population
variance of the collected returns.  The enclosing chart value is
`Math.sqrt(variance * 365) * 100`, related in `vol30_window`. -/
def vol30VarSeries (log : ℚ → ℚ) (prices : List ℚ) : List (Option ℚ) :=
  (List.range prices.length).map fun i =>
    if 30 ≤ i then
      let returns := vol30Returns log prices i
      if 5 < returns.length then
        let mean := returns.sum / returns.length
        some (((returns.map fun r => (r - mean) ^ 2).sum) / returns.length)
      else none
    else none

theorem vol30Returns_eq_map (log : ℚ → ℚ) (prices : List ℚ) (i : ℕ)
    (hpos : ∀ p ∈ prices, 0 < p) (hi : i < prices.length) (h30 : 30 ≤ i) :
    vol30Returns log prices i =
      (List.range 30).map fun k =>
        log (prices.getD (i - 29 + k) 0 / prices.getD (i - 30 + k) 0) := by
  rw [vol30Returns]
  apply filterMap_eq_map_of_forall
  intro k hk
  have hk30 : k < 30 := List.mem_range.1 hk
  have hjne : ¬ (i - 29 + k = 0) := by omega
  have hj : i - 29 + k < prices.length := by omega
  have hj1 : i - 29 + k - 1 < prices.length := by omega
  have hidx : i - 29 + k - 1 = i - 30 + k := by omega
  have ha : prices[i - 29 + k]? = some (prices.getD (i - 29 + k) 0) := by
    rw [List.getElem?_eq_getElem hj, List.getD_eq_getElem prices 0 hj]
  have hj2 : i - 30 + k < prices.length := by omega
  have hb : prices[i - 29 + k - 1]? = some (prices.getD (i - 30 + k) 0) := by
    rw [show i - 29 + k - 1 = i - 30 + k from hidx]
    rw [List.getElem?_eq_getElem hj2, List.getD_eq_getElem prices 0 hj2]
  have hapos : 0 < prices.getD (i - 29 + k) 0 := by
    rw [List.getD_eq_getElem prices 0 hj]
    exact hpos _ (List.getElem_mem hj)
  have hbpos : 0 < prices.getD (i - 30 + k) 0 := by
    rw [List.getD_eq_getElem prices 0 hj2]
    exact hpos _ (List.getElem_mem hj2)
  simp only [if_neg hjne, ha, hb]
  rw [if_pos ⟨ne_of_gt hapos, ne_of_gt hbpos⟩]

/-- C9: with positive prices throughout, the volatility value at index `i`
of the filtered series is non-null iff `i` has at least 30 preceding
consecutive price-resolvable entries (`i ≥ 30`); in that case the variance
is taken over exactly the 30 log returns of the trailing window and the
charted value `√(v·365)·100` equals the standard deviation `√v` multiplied
by `√365`, expressed as a percentage; with fewer predecessors the value is
null, never zero. -/
theorem vol30_window (log : ℚ → ℚ) (prices : List ℚ) (i : ℕ)
    (hpos : ∀ p ∈ prices, 0 < p) (hi : i < prices.length) :
    ((vol30VarSeries log prices).getD i none ≠ none ↔ 30 ≤ i) ∧
    (∀ v, (vol30VarSeries log prices).getD i none = some v →
      (vol30Returns log prices i).length = 30 ∧
      vol30Returns log prices i =
        ((List.range 30).map fun k =>
          log (prices.getD (i - 29 + k) 0 / prices.getD (i - 30 + k) 0)) ∧
      v = ((vol30Returns log prices i).map
            (fun r => (r - (vol30Returns log prices i).sum / 30) ^ 2)).sum / 30 ∧
      0 ≤ v ∧
      Real.sqrt ((v : ℝ) * 365) * 100 = Real.sqrt (v : ℝ) * Real.sqrt 365 * 100) := by
  have hser : (vol30VarSeries log prices).getD i none =
      (if 30 ≤ i then
        (if 5 < (vol30Returns log prices i).length then
          some ((((vol30Returns log prices i).map fun r =>
            (r - (vol30Returns log prices i).sum /
              ((vol30Returns log prices i).length : ℚ)) ^ 2).sum) /
                ((vol30Returns log prices i).length : ℚ))
        else none)
      else none) := by
    simp [vol30VarSeries, List.getD_eq_getElem?_getD, List.getElem?_map,
      List.getElem?_range, hi]
  by_cases h30 : 30 ≤ i
  · have hret := vol30Returns_eq_map log prices i hpos hi h30
    have hlen : (vol30Returns log prices i).length = 30 := by
      rw [hret]; simp
    have h5 : 5 < (vol30Returns log prices i).length := by omega
    rw [hser, if_pos h30, if_pos h5]
    refine ⟨by simp [h30], ?_⟩
    intro v hv
    have hveq : v = (((vol30Returns log prices i).map fun r =>
        (r - (vol30Returns log prices i).sum /
          ((vol30Returns log prices i).length : ℚ)) ^ 2).sum) /
            ((vol30Returns log prices i).length : ℚ) := (Option.some_inj.1 hv).symm
    have hvnn : 0 ≤ v := by
      rw [hveq]
      apply div_nonneg
      · apply List.sum_nonneg
        intro x hx
        rw [List.mem_map] at hx
        obtain ⟨r, -, rfl⟩ := hx
        positivity
      · positivity
    refine ⟨hlen, hret, ?_, hvnn, ?_⟩
    · rw [hveq, hlen]
      norm_num
    · have hv0 : (0 : ℝ) ≤ (v : ℝ) := by exact_mod_cast hvnn
      rw [Real.sqrt_mul hv0 365]
  · rw [hser, if_neg h30]
    exact ⟨by simp [h30], fun v hv => absurd hv (by simp)⟩

theorem vol30_window_witness :
    (∀ p ∈ List.replicate 31 (1 : ℚ), 0 < p) ∧
    30 < (List.replicate 31 (1 : ℚ)).length ∧
    (((vol30VarSeries id (List.replicate 31 1)).getD 30 none ≠ none ↔ 30 ≤ 30) ∧
     (∀ v, (vol30VarSeries id (List.replicate 31 1)).getD 30 none = some v →
       (vol30Returns id (List.replicate 31 1) 30).length = 30 ∧
       vol30Returns id (List.replicate 31 1) 30 =
         ((List.range 30).map fun k =>
           id ((List.replicate 31 (1 : ℚ)).getD (30 - 29 + k) 0 /
             (List.replicate 31 (1 : ℚ)).getD (30 - 30 + k) 0)) ∧
       v = ((vol30Returns id (List.replicate 31 1) 30).map
             (fun r => (r - (vol30Returns id (List.replicate 31 1) 30).sum / 30) ^ 2)).sum / 30 ∧
       0 ≤ v ∧
       Real.sqrt ((v : ℝ) * 365) * 100 = Real.sqrt (v : ℝ) * Real.sqrt 365 * 100)) :=
  ⟨by decide, by decide,
   vol30_window id (List.replicate 31 1) 30 (by decide) (by decide)⟩

/-! ## Persistent store (`db.ts`)

The `term_spreads` table is keyed by `date`.  `upsertTermSpread` is the
`INSERT … ON CONFLICT(date) DO UPDATE SET` statement: the insert path seeds
`term_spread_7dma` with `NULL` and leaves the migration columns (`regime`,
`btc_outlook`, `prob_positive_90d`) `NULL`; the conflict path updates only
the spread-derived columns.  `updateTermSpread7dma` and `updateRegime` are
the dedicated `UPDATE … WHERE date` statements. -/

/-- One row of `term_spreads` (all columns, including the nullable smoothed
spread and the regime migration columns). -/
structure TermSpreadDbRow where
  frontAddr : String
  frontExpiry : ℕ
  frontImplied : ℚ
  backAddr : String
  backExpiry : ℕ
  backImplied : ℚ
  termSpread : ℚ
  termSpread7dma : Option ℚ
  underlyingApy : Option ℚ
  numMaturities : ℕ
  regime : Option String
  btcOutlook : Option String
  probPositive90d : Option ℚ
deriving DecidableEq

/-- `upsertTermSpread`: insert with `term_spread_7dma = NULL` (regime
columns absent from the column list, hence `NULL`), or on conflict update
exactly the nine spread-derived columns. -/
def upsertTermSpread (table : ℕ → Option TermSpreadDbRow)
    (p : TermSpreadParams) : ℕ → Option TermSpreadDbRow :=
  fun d =>
    if d = p.date then
      match table p.date with
      | none =>
        some
          { frontAddr := p.frontAddr
            frontExpiry := p.frontExpiry
            frontImplied := p.frontImplied
            backAddr := p.backAddr
            backExpiry := p.backExpiry
            backImplied := p.backImplied
            termSpread := p.termSpread
            termSpread7dma := none
            underlyingApy := some p.underlyingApy
            numMaturities := p.numMaturities
            regime := none
            btcOutlook := none
            probPositive90d := none }
      | some old =>
        some
          { old with
            frontAddr := p.frontAddr
            frontExpiry := p.frontExpiry
            frontImplied := p.frontImplied
            backAddr := p.backAddr
            backExpiry := p.backExpiry
            backImplied := p.backImplied
            termSpread := p.termSpread
            underlyingApy := some p.underlyingApy
            numMaturities := p.numMaturities }
    else table d

/-- `UPDATE term_spreads SET term_spread_7dma = @v WHERE date = @date`. -/
def updateTermSpread7dma (table : ℕ → Option TermSpreadDbRow) (date : ℕ)
    (v : ℚ) : ℕ → Option TermSpreadDbRow :=
  fun d =>
    if d = date then (table d).map fun old => { old with termSpread7dma := some v }
    else table d

/-- `UPDATE term_spreads SET regime = @r, btc_outlook = @o,
prob_positive_90d = @p WHERE date = @date`. -/
def updateRegime (table : ℕ → Option TermSpreadDbRow) (date : ℕ)
    (rg ol : String) (pv : ℚ) : ℕ → Option TermSpreadDbRow :=
  fun d =>
    if d = date then
      (table d).map fun old =>
        { old with
          regime := some rg
          btcOutlook := some ol
          probPositive90d := some pv }
    else table d

/-- C10: re-running the spread upsert for a date that already has a record
replaces exactly the nine spread-derived columns and leaves the stored
smoothed spread and the regime, outlook and probability columns unchanged
(and every other date untouched); those four columns are modified only by
their dedicated update statements, each of which touches nothing else. -/
theorem upsertTermSpread_conflict_frame (table : ℕ → Option TermSpreadDbRow)
    (p : TermSpreadParams) (old : TermSpreadDbRow)
    (hold : table p.date = some old) :
    (∃ nr, upsertTermSpread table p p.date = some nr ∧
      nr.termSpread7dma = old.termSpread7dma ∧
      nr.regime = old.regime ∧
      nr.btcOutlook = old.btcOutlook ∧
      nr.probPositive90d = old.probPositive90d ∧
      nr.frontAddr = p.frontAddr ∧ nr.frontExpiry = p.frontExpiry ∧
      nr.frontImplied = p.frontImplied ∧ nr.backAddr = p.backAddr ∧
      nr.backExpiry = p.backExpiry ∧ nr.backImplied = p.backImplied ∧
      nr.termSpread = p.termSpread ∧
      nr.underlyingApy = some p.underlyingApy ∧
      nr.numMaturities = p.numMaturities) ∧
    (∀ d, d ≠ p.date → upsertTermSpread table p d = table d) ∧
    (∀ (t : ℕ → Option TermSpreadDbRow) (date : ℕ) (v : ℚ) (d : ℕ)
       (r r' : TermSpreadDbRow), t d = some r →
      updateTermSpread7dma t date v d = some r' →
        r'.termSpread7dma = (if d = date then some v else r.termSpread7dma) ∧
        r'.frontAddr = r.frontAddr ∧ r'.frontExpiry = r.frontExpiry ∧
        r'.frontImplied = r.frontImplied ∧ r'.backAddr = r.backAddr ∧
        r'.backExpiry = r.backExpiry ∧ r'.backImplied = r.backImplied ∧
        r'.termSpread = r.termSpread ∧ r'.underlyingApy = r.underlyingApy ∧
        r'.numMaturities = r.numMaturities ∧ r'.regime = r.regime ∧
        r'.btcOutlook = r.btcOutlook ∧
        r'.probPositive90d = r.probPositive90d) ∧
    (∀ (t : ℕ → Option TermSpreadDbRow) (date : ℕ) (rg ol : String) (pv : ℚ)
       (d : ℕ) (r r' : TermSpreadDbRow), t d = some r →
      updateRegime t date rg ol pv d = some r' →
        r'.regime = (if d = date then some rg else r.regime) ∧
        r'.btcOutlook = (if d = date then some ol else r.btcOutlook) ∧
        r'.probPositive90d = (if d = date then some pv else r.probPositive90d) ∧
        r'.termSpread7dma = r.termSpread7dma ∧
        r'.frontAddr = r.frontAddr ∧ r'.frontExpiry = r.frontExpiry ∧
        r'.frontImplied = r.frontImplied ∧ r'.backAddr = r.backAddr ∧
        r'.backExpiry = r.backExpiry ∧ r'.backImplied = r.backImplied ∧
        r'.termSpread = r.termSpread ∧ r'.underlyingApy = r.underlyingApy ∧
        r'.numMaturities = r.numMaturities) := by
  refine ⟨?_, ?_, ?_, ?_⟩
  · have heq : upsertTermSpread table p p.date =
        some
          { old with
            frontAddr := p.frontAddr
            frontExpiry := p.frontExpiry
            frontImplied := p.frontImplied
            backAddr := p.backAddr
            backExpiry := p.backExpiry
            backImplied := p.backImplied
            termSpread := p.termSpread
            underlyingApy := some p.underlyingApy
            numMaturities := p.numMaturities } := by
      unfold upsertTermSpread
      rw [if_pos rfl, hold]
    exact ⟨_, heq, rfl, rfl, rfl, rfl, rfl, rfl, rfl, rfl, rfl, rfl, rfl, rfl, rfl⟩
  · intro d hd
    rw [upsertTermSpread]
    simp only [if_neg hd]
  · intro t date v d r r' hr hup
    rw [updateTermSpread7dma] at hup
    by_cases hd : d = date
    · rw [if_pos hd, hr, Option.map_some'] at hup
      obtain rfl := (Option.some_inj.1 hup).symm
      rw [if_pos hd]
      exact ⟨rfl, rfl, rfl, rfl, rfl, rfl, rfl, rfl, rfl, rfl, rfl, rfl, rfl⟩
    · rw [if_neg hd, hr] at hup
      obtain rfl := (Option.some_inj.1 hup).symm
      rw [if_neg hd]
      exact ⟨rfl, rfl, rfl, rfl, rfl, rfl, rfl, rfl, rfl, rfl, rfl, rfl, rfl⟩
  · intro t date rg ol pv d r r' hr hup
    rw [updateRegime] at hup
    by_cases hd : d = date
    · rw [if_pos hd, hr, Option.map_some'] at hup
      obtain rfl := (Option.some_inj.1 hup).symm
      rw [if_pos hd, if_pos hd, if_pos hd]
      exact ⟨rfl, rfl, rfl, rfl, rfl, rfl, rfl, rfl, rfl, rfl, rfl, rfl, rfl⟩
    · rw [if_neg hd, hr] at hup
      obtain rfl := (Option.some_inj.1 hup).symm
      rw [if_neg hd, if_neg hd, if_neg hd]
      exact ⟨rfl, rfl, rfl, rfl, rfl, rfl, rfl, rfl, rfl, rfl, rfl, rfl, rfl⟩

/-- A stored row with non-null smoothed spread and regime columns. -/
def dbRowStored : TermSpreadDbRow :=
  { frontAddr := "0xf"
    frontExpiry := 100
    frontImplied := 4
    backAddr := "0xb"
    backExpiry := 200
    backImplied := 6
    termSpread := 2
    termSpread7dma := some 1
    underlyingApy := some 1
    numMaturities := 2
    regime := some "BULLISH"
    btcOutlook := some "up"
    probPositive90d := some 66 }

/-- Fresh spread-engine output for the same date. -/
def paramsRerun : TermSpreadParams :=
  { date := 0
    frontAddr := "0xf2"
    frontExpiry := 110
    frontImplied := 5
    backAddr := "0xb2"
    backExpiry := 210
    backImplied := 7
    termSpread := 2
    underlyingApy := 2
    numMaturities := 3 }

/-- A one-row table holding `dbRowStored` at date 0. -/
def tableStored : ℕ → Option TermSpreadDbRow :=
  fun d => if d = 0 then some dbRowStored else none

theorem upsertTermSpread_conflict_frame_witness :
    tableStored paramsRerun.date = some dbRowStored ∧
    ((∃ nr, upsertTermSpread tableStored paramsRerun paramsRerun.date = some nr ∧
      nr.termSpread7dma = dbRowStored.termSpread7dma ∧
      nr.regime = dbRowStored.regime ∧
      nr.btcOutlook = dbRowStored.btcOutlook ∧
      nr.probPositive90d = dbRowStored.probPositive90d ∧
      nr.frontAddr = paramsRerun.frontAddr ∧
      nr.frontExpiry = paramsRerun.frontExpiry ∧
      nr.frontImplied = paramsRerun.frontImplied ∧
      nr.backAddr = paramsRerun.backAddr ∧
      nr.backExpiry = paramsRerun.backExpiry ∧
      nr.backImplied = paramsRerun.backImplied ∧
      nr.termSpread = paramsRerun.termSpread ∧
      nr.underlyingApy = some paramsRerun.underlyingApy ∧
      nr.numMaturities = paramsRerun.numMaturities) ∧
    (∀ d, d ≠ paramsRerun.date →
      upsertTermSpread tableStored paramsRerun d = tableStored d) ∧
    (∀ (t : ℕ → Option TermSpreadDbRow) (date : ℕ) (v : ℚ) (d : ℕ)
       (r r' : TermSpreadDbRow), t d = some r →
      updateTermSpread7dma t date v d = some r' →
        r'.termSpread7dma = (if d = date then some v else r.termSpread7dma) ∧
        r'.frontAddr = r.frontAddr ∧ r'.frontExpiry = r.frontExpiry ∧
        r'.frontImplied = r.frontImplied ∧ r'.backAddr = r.backAddr ∧
        r'.backExpiry = r.backExpiry ∧ r'.backImplied = r.backImplied ∧
        r'.termSpread = r.termSpread ∧ r'.underlyingApy = r.underlyingApy ∧
        r'.numMaturities = r.numMaturities ∧ r'.regime = r.regime ∧
        r'.btcOutlook = r.btcOutlook ∧
        r'.probPositive90d = r.probPositive90d) ∧
    (∀ (t : ℕ → Option TermSpreadDbRow) (date : ℕ) (rg ol : String) (pv : ℚ)
       (d : ℕ) (r r' : TermSpreadDbRow), t d = some r →
      updateRegime t date rg ol pv d = some r' →
        r'.regime = (if d = date then some rg else r.regime) ∧
        r'.btcOutlook = (if d = date then some ol else r.btcOutlook) ∧
        r'.probPositive90d = (if d = date then some pv else r.probPositive90d) ∧
        r'.termSpread7dma = r.termSpread7dma ∧
        r'.frontAddr = r.frontAddr ∧ r'.frontExpiry = r.frontExpiry ∧
        r'.frontImplied = r.frontImplied ∧ r'.backAddr = r.backAddr ∧
        r'.backExpiry = r.backExpiry ∧ r'.backImplied = r.backImplied ∧
        r'.termSpread = r.termSpread ∧ r'.underlyingApy = r.underlyingApy ∧
        r'.numMaturities = r.numMaturities)) :=
  ⟨rfl, upsertTermSpread_conflict_frame tableStored paramsRerun dbRowStored rfl⟩
